import Mathlib

/-!
Verification of the fantasy-pl-mcp stdio bridge layer.

This file shallowly embeds the process-wrapper classes of
`src/fpl_mcp/http_mcp_server.py`, `src/fpl_mcp/simple_api.py`,
`src/fpl_mcp/n8n_bridge.py`, the duplex copy loops of
`src/fpl_mcp/tcp_bridge.py` and the SSE event generators of
`src/fpl_mcp/sse_transport.py` / `http_mcp_server.py`, and proves or
refutes the specified correlation, lifecycle, transparency and
streaming properties against those embeddings.
-/

set_option linter.unusedVariables false

namespace FplMcp

/-- JSON values as produced by Python dicts / `json` module: the requests the
bridge builds and the responses `json.loads` yields. Objects keep insertion
order, as Python dicts do. -/
inductive Json where
  | null : Json
  | bool : Bool → Json
  | num : Int → Json
  | str : String → Json
  | arr : List Json → Json
  | obj : List (String × Json) → Json
deriving Repr

/-- The `id` field of a JSON-RPC envelope: first binding of key `"id"` of a
JSON object (Python `body["id"]` lookup), `none` for non-objects. -/
def Json.getId : Json → Option Json
  | .obj kvs => kvs.lookup "id"
  | _ => none

/-- One spawned child process handle, as an `asyncio` subprocess is observed by
the wrapper classes: `returncode` is `none` while the process runs and holds
the exit status once it has exited. -/
structure ProcHandle where
  pid : Nat
  returncode : Option Int
deriving Repr, DecidableEq

/-- A line of child stdout, abstracted by what `json.loads` does with it:
either a line parsing to a JSON value, or a malformed line on which
`json.loads` raises. -/
inductive ChildLine where
  | json : Json → ChildLine
  | malformed : String → ChildLine
deriving Repr

/-- The child's stdout stream as the wrappers read it: the buffered unread
lines, and whether end-of-file follows them (`closed = true` once the child
has exited and everything it wrote is in `lines`). `readline` on an open
stream with no buffered line suspends. -/
structure OutStream where
  lines : List ChildLine
  closed : Bool
deriving Repr

/-- State of one wrapped child process shared by a wrapper object
(`MCPHTTPServer` / `FPLSimpleAPI` / `N8nMCPBridge`): the requests written to
its stdin so far, one JSON document per line, and its stdout stream. -/
structure BridgeState where
  stdinReqs : List Json
  stdout : OutStream
deriving Repr

/-- How one wrapper call ends: `ok` when `json.loads` of the line read
succeeds and the parse is returned; `exn` when `json.loads` raises (a
malformed line, or the empty string that `readline` returns at end-of-file);
`blocked` when `await readline()` never returns because the stream is open
with nothing buffered. `timeout` is produced by no code path in the
repository; the constructor exists only so the spec's Timeout outcome is
expressible in statements about these wrappers. -/
inductive CallOutcome where
  | ok : Json → CallOutcome
  | exn : CallOutcome
  | blocked : CallOutcome
  | timeout : CallOutcome
deriving Repr

/-- `json.loads` applied to one stdout line. -/
def parseOutcome : ChildLine → CallOutcome
  | .json j => .ok j
  | .malformed _ => .exn

/-- `self.mcp_process.stdin.write(json.dumps(request) + "\n")`: appends the
request as one line on the child's stdin. -/
def writeReq (req : Json) (s : BridgeState) : BridgeState :=
  { s with stdinReqs := s.stdinReqs ++ [req] }

/-- `await stdout.readline()` followed by `json.loads(line.strip())`: consumes
the next buffered line and parses it; at end-of-file `readline` returns `b""`
and `json.loads("")` raises; on an open empty stream the caller suspends. -/
def readlineParse (s : BridgeState) : CallOutcome × BridgeState :=
  match s.stdout.lines with
  | l :: rest => (parseOutcome l, { s with stdout := { s.stdout with lines := rest } })
  | [] => if s.stdout.closed then (.exn, s) else (.blocked, s)

/-- `await stdout.readline()` whose result is only logged, never parsed
(the init-response read of `FPLSimpleAPI.call_mcp_tool`): consumes the next
line if any; at end-of-file the empty result is logged and execution
continues; on an open empty stream the caller suspends (`none`). -/
def readlineSkip (s : BridgeState) : Option BridgeState :=
  match s.stdout.lines with
  | _ :: rest => some { s with stdout := { s.stdout with lines := rest } }
  | [] => if s.stdout.closed then some s else none

/-- `MCPHTTPServer.send_mcp_request` (http_mcp_server.py lines 34-52): write
the request as one line, then read the next stdout line and `json.loads` it as
the response. The same write-then-read-next-line shape is
`N8nMCPBridge.call_mcp_tool` (n8n_bridge.py lines 48-56). -/
def sendMcpRequest (req : Json) (s : BridgeState) : CallOutcome × BridgeState :=
  readlineParse (writeReq req s)

/-- The `initialize` request `FPLSimpleAPI.call_mcp_tool` builds on every
call (simple_api.py lines 51-63); its id is the literal 1. -/
def initRequest : Json :=
  .obj [("jsonrpc", .str "2.0"), ("id", .num 1), ("method", .str "initialize"),
        ("params", .obj [("protocolVersion", .str "2024-11-05"),
                         ("capabilities", .obj []),
                         ("clientInfo", .obj [("name", .str "simple-api"),
                                              ("version", .str "1.0.0")])])]

/-- The `tools/call` request `FPLSimpleAPI.call_mcp_tool` builds
(simple_api.py lines 76-84); its id is the literal 2. -/
def toolCallRequest (toolName : String) (arguments : Json) : Json :=
  .obj [("jsonrpc", .str "2.0"), ("id", .num 2), ("method", .str "tools/call"),
        ("params", .obj [("name", .str toolName), ("arguments", arguments)])]

/-- The request `N8nMCPBridge.call_mcp_tool` builds (n8n_bridge.py lines
38-46); its id is the literal 1 on every call. -/
def n8nToolRequest (toolName : String) (arguments : Json) : Json :=
  .obj [("jsonrpc", .str "2.0"), ("id", .num 1), ("method", .str "tools/call"),
        ("params", .obj [("name", .str toolName), ("arguments", arguments)])]

/-- `FPLSimpleAPI.call_mcp_tool` (simple_api.py lines 43-98): write the
`initialize` request, read one line (only logged), write the `tools/call`
request, read one line and `json.loads` it as the tool response. -/
def callMcpTool (toolName : String) (arguments : Json) (s : BridgeState) :
    CallOutcome × BridgeState :=
  let s1 := writeReq initRequest s
  match readlineSkip s1 with
  | none => (.blocked, s1)
  | some s2 => readlineParse (writeReq (toolCallRequest toolName arguments) s2)

/-- `MCPHTTPServer.start_mcp_process` (http_mcp_server.py lines 23-32): spawn
only when `self.mcp_process is None`; an existing handle is kept even if the
process has exited. `fresh` is the pid a new spawn would get. -/
def startMcpProcessHttp (p : Option ProcHandle) (fresh : Nat) : Option ProcHandle :=
  match p with
  | none => some ⟨fresh, none⟩
  | some h => some h

/-- `N8nMCPBridge.start_mcp_process` (n8n_bridge.py lines 23-32): identical
guard, spawn only when the handle is `None`. -/
def startMcpProcessN8n (p : Option ProcHandle) (fresh : Nat) : Option ProcHandle :=
  match p with
  | none => some ⟨fresh, none⟩
  | some h => some h

/-- `FPLSimpleAPI.start_mcp_process` (simple_api.py lines 32-41): spawn when
`self.mcp_process is None or self.mcp_process.returncode is not None`. -/
def startMcpProcessSimple (p : Option ProcHandle) (fresh : Nat) : Option ProcHandle :=
  match p with
  | none => some ⟨fresh, none⟩
  | some h => if h.returncode.isSome then some ⟨fresh, none⟩ else some h

/-- A handle refers to a live (not yet exited) process. -/
def isLive : Option ProcHandle → Bool
  | some h => h.returncode.isNone
  | none => false

/-- Request with id 1 used in refutations: call A of the C1 scenario. -/
def reqA : Json :=
  .obj [("jsonrpc", .str "2.0"), ("id", .num 1), ("method", .str "tools/call"),
        ("params", .obj [("name", .str "get_gameweek_status"), ("arguments", .obj [])])]

/-- Request with id 2 used in refutations: call B of the C1 scenario. -/
def reqB : Json :=
  .obj [("jsonrpc", .str "2.0"), ("id", .num 2), ("method", .str "tools/call"),
        ("params", .obj [("name", .str "analyze_players"), ("arguments", .obj [])])]

/-- The child's response correlated to `reqA` (same id 1). -/
def respA : Json := .obj [("jsonrpc", .str "2.0"), ("id", .num 1), ("result", .str "resultA")]

/-- The child's response correlated to `reqB` (same id 2). -/
def respB : Json := .obj [("jsonrpc", .str "2.0"), ("id", .num 2), ("result", .str "resultB")]

/-- Stdout buffer of the C1 scenario: the child's responses arrived in the
order B then A. -/
def outOfOrderState : BridgeState :=
  { stdinReqs := [], stdout := { lines := [.json respB, .json respA], closed := false } }

end FplMcp

namespace FplMcp

/-- C1: issuing call A (id 1) then call B (id 2) on the shared process while
the child's response lines arrived in the order B then A, the caller of A
receives B's response and the caller of B receives A's response: delivery
follows arrival order, and the response handed to A's caller carries id 2,
not A's id 1 — delivery does not match the correlation id, refuting the
claim at this concrete input. -/
theorem c1_delivery_not_by_id :
    (sendMcpRequest reqA outOfOrderState).1 = .ok respB ∧
    (sendMcpRequest reqB (sendMcpRequest reqA outOfOrderState).2).1 = .ok respA ∧
    respB.getId ≠ reqA.getId ∧ respA.getId ≠ reqB.getId := by
  refine ⟨rfl, rfl, ?_, ?_⟩ <;>
    simp [respA, respB, reqA, reqB, Json.getId, List.lookup]

/-- C1 amended: responses are delivered to callers in arrival order, not by
correlation id — each call through `send_mcp_request` returns the parse of
the next unread stdout line, whatever id that line carries, and leaves the
remaining lines for the next caller. -/
theorem c1_amended_arrival_order (req : Json) (ins : List Json) (l : ChildLine)
    (rest : List ChildLine) (c : Bool) :
    sendMcpRequest req ⟨ins, ⟨l :: rest, c⟩⟩ =
      (parseOutcome l, ⟨ins ++ [req], ⟨rest, c⟩⟩) := rfl

/-- C2: the correlation ids of two distinct successive calls coincide — both
`N8nMCPBridge.call_mcp_tool` envelopes carry the literal id 1, so a newly
issued call reuses the id of an earlier call of the same process, refuting
uniqueness across the process lifetime at this concrete input. -/
theorem c2_ids_reused :
    (n8nToolRequest "get_gameweek_status" (.obj [])).getId = some (.num 1) ∧
    (n8nToolRequest "analyze_players" (.obj [])).getId = some (.num 1) ∧
    "get_gameweek_status" ≠ "analyze_players" := by
  refine ⟨rfl, rfl, by decide⟩

/-- C2 amended: ids are fixed literals, not a monotonic counter — every
`n8n_bridge` tools/call envelope carries id 1, and every `simple_api` call
writes an initialize envelope with id 1 followed by a tools/call envelope
with id 2, the same ids on every call. -/
theorem c2_amended_constant_ids (t t' : String) (a a' : Json) :
    (n8nToolRequest t a).getId = some (.num 1) ∧
    initRequest.getId = some (.num 1) ∧
    (toolCallRequest t' a').getId = some (.num 2) := ⟨rfl, rfl, rfl⟩

/-- C4: acquisition does not always yield a live process — with an existing
handle whose process has exited (returncode 0 set), `MCPHTTPServer.start_mcp_process`
keeps the dead handle instead of spawning a replacement, refuting the claim
at this concrete input (the same guard is `N8nMCPBridge.start_mcp_process`). -/
theorem c4_http_keeps_dead_handle :
    startMcpProcessHttp (some ⟨7, some 0⟩) 8 = some ⟨7, some 0⟩ ∧
    startMcpProcessN8n (some ⟨7, some 0⟩) 8 = some ⟨7, some 0⟩ ∧
    isLive (startMcpProcessHttp (some ⟨7, some 0⟩) 8) = false := ⟨rfl, rfl, rfl⟩

/-- C4 amended: only `FPLSimpleAPI.start_mcp_process` re-checks liveness — it
spawns when the handle is absent or its process has exited and so always
leaves a live process; `MCPHTTPServer.start_mcp_process` and
`N8nMCPBridge.start_mcp_process` spawn only when the handle is `None` and
otherwise keep the existing handle unchanged, even after its process exited. -/
theorem c4_amended_only_simple_respawns :
    (∀ p fresh, isLive (startMcpProcessSimple p fresh) = true) ∧
    (∀ h fresh, startMcpProcessHttp (some h) fresh = some h) ∧
    (∀ h fresh, startMcpProcessN8n (some h) fresh = some h) := by
  refine ⟨fun p fresh => ?_, fun h fresh => rfl, fun h fresh => rfl⟩
  match p with
  | none => rfl
  | some h =>
    by_cases hr : h.returncode.isSome <;>
      simp [startMcpProcessSimple, isLive, hr, Option.isNone_iff_eq_none,
        Option.not_isSome_iff_eq_none.mp]

/-- C5: a call on a live process whose child never answers does not fail with
a Timeout once a deadline elapses — `send_mcp_request` has no deadline, and
with an open stdout holding no line the issuing caller suspends on
`readline` forever; the outcome is `blocked`, not `timeout`, refuting the
claim's three-way resolution at this concrete input. -/
theorem c5_no_timeout_blocks_forever :
    (sendMcpRequest reqA ⟨[], ⟨[], false⟩⟩).1 = .blocked ∧
    CallOutcome.blocked ≠ CallOutcome.timeout := ⟨rfl, by simp⟩

/-- C5 amended: a call through `send_mcp_request` blocks its issuing caller
until a stdout line is available or end-of-file: with a buffered line it
resolves with that line's `json.loads` outcome whatever id it carries, at
end-of-file it fails with the exception `json.loads("")` raises (not a
distinguished ProcessLost failure), and on an open empty stream it blocks
forever — no execution produces a Timeout outcome, and an unread late
response is left buffered for the next caller rather than dropped. -/
theorem c5_amended_outcomes (req : Json) (ins : List Json) :
    (∀ l rest c, sendMcpRequest req ⟨ins, ⟨l :: rest, c⟩⟩ =
        (parseOutcome l, ⟨ins ++ [req], ⟨rest, c⟩⟩)) ∧
    (sendMcpRequest req ⟨ins, ⟨[], true⟩⟩).1 = .exn ∧
    (sendMcpRequest req ⟨ins, ⟨[], false⟩⟩).1 = .blocked ∧
    (∀ s, (sendMcpRequest req s).1 ≠ .timeout) := by
  refine ⟨fun l rest c => rfl, rfl, rfl, fun s => ?_⟩
  match s with
  | ⟨ins', ⟨[], true⟩⟩ => simp [sendMcpRequest, writeReq, readlineParse]
  | ⟨ins', ⟨[], false⟩⟩ => simp [sendMcpRequest, writeReq, readlineParse]
  | ⟨ins', ⟨l :: rest, c⟩⟩ =>
    match l with
    | .json j => simp [sendMcpRequest, writeReq, readlineParse, parseOutcome]
    | .malformed r => simp [sendMcpRequest, writeReq, readlineParse, parseOutcome]

/-- Stdout buffer of the C6 scenario: a malformed line followed by the valid
response correlated to `reqA`. -/
def malformedThenValidState : BridgeState :=
  { stdinReqs := [],
    stdout := { lines := [.malformed "not json", .json respA], closed := false } }

/-- C6: a malformed stdout line is not logged-and-dropped by a read loop —
`json.loads` raises inside the reading call, so the caller of `reqA` gets the
exception instead of its own valid correlated response, which is the very
next line; the malformed line did prevent a subsequent valid response line
from resolving its correlated call, refuting the claim at this concrete
input. -/
theorem c6_malformed_fails_caller :
    (sendMcpRequest reqA malformedThenValidState).1 = .exn ∧
    CallOutcome.exn ≠ CallOutcome.ok respA ∧
    (sendMcpRequest reqA malformedThenValidState).2.stdout.lines = [.json respA] :=
  ⟨rfl, by simp, rfl⟩

/-- C6 amended: there is no reader loop — a malformed line makes `json.loads`
raise in whichever call reads it: that call fails with the exception instead
of a response, the malformed line is consumed, and only a later call can read
the following lines. -/
theorem c6_amended_malformed_raises (req : Json) (ins : List Json) (raw : String)
    (rest : List ChildLine) (c : Bool) :
    sendMcpRequest req ⟨ins, ⟨.malformed raw :: rest, c⟩⟩ =
      (.exn, ⟨ins ++ [req], ⟨rest, c⟩⟩) := rfl

/-- C10: every `FPLSimpleAPI.call_mcp_tool` invocation on a child with at
least two response lines buffered writes exactly two lines to its stdin — the
initialize request with id 1 then the tools/call request with id 2 — and
consumes exactly two stdout lines, returning the `json.loads` outcome of the
second; the equation holds per call, so initialization is re-sent on every
call rather than once per process. -/
theorem c10_two_writes_two_reads (tool : String) (args : Json) (ins : List Json)
    (l1 l2 : ChildLine) (rest : List ChildLine) (c : Bool) :
    callMcpTool tool args ⟨ins, ⟨l1 :: l2 :: rest, c⟩⟩ =
      (parseOutcome l2, ⟨ins ++ [initRequest, toolCallRequest tool args], ⟨rest, c⟩⟩) ∧
    initRequest.getId = some (.num 1) ∧
    (toolCallRequest tool args).getId = some (.num 2) := by
  refine ⟨?_, rfl, rfl⟩
  simp [callMcpTool, writeReq, readlineSkip, readlineParse]

/-- `forward_client_to_mcp` (tcp_bridge.py lines 32-46): loop reading chunks
of up to 8192 bytes from the TCP client; an empty read (EOF) breaks the loop,
any other chunk is written unaltered to the child's stdin. The argument is
the successive values `reader.read(8192)` returns; the result is the byte
sequence written to the child's stdin. -/
def forward_client_to_mcp : List (List Nat) → List Nat
  | [] => []
  | chunk :: rest => if chunk = [] then [] else chunk ++ forward_client_to_mcp rest

/-- `forward_mcp_to_client` (tcp_bridge.py lines 48-63): the same loop in the
opposite direction — chunks read from the child's stdout are written
unaltered to the client socket until an empty read. -/
def forward_mcp_to_client : List (List Nat) → List Nat
  | [] => []
  | chunk :: rest => if chunk = [] then [] else chunk ++ forward_mcp_to_client rest

/-- C7: duplex byte transparency — when every chunk a stream read returns
before EOF is nonempty (as `asyncio` stream reads are), the bytes the bridge
writes to the child's stdin are exactly the concatenation of the bytes
received from the TCP peer, and the bytes written to the peer's socket are
exactly the concatenation of the bytes the child wrote, in order and
unaltered, in both directions. -/
theorem c7_duplex_transparency (clientChunks mcpChunks : List (List Nat))
    (h1 : ∀ c ∈ clientChunks, c ≠ []) (h2 : ∀ c ∈ mcpChunks, c ≠ []) :
    forward_client_to_mcp clientChunks = clientChunks.flatten ∧
    forward_mcp_to_client mcpChunks = mcpChunks.flatten := by
  constructor
  · induction clientChunks with
    | nil => rfl
    | cons c rest ih =>
      have hc : c ≠ [] := h1 c (List.mem_cons_self c rest)
      simp [forward_client_to_mcp, hc, ih fun x hx => h1 x (List.mem_cons_of_mem c hx)]
  · induction mcpChunks with
    | nil => rfl
    | cons c rest ih =>
      have hc : c ≠ [] := h2 c (List.mem_cons_self c rest)
      simp [forward_mcp_to_client, hc, ih fun x hx => h2 x (List.mem_cons_of_mem c hx)]

/-- Witness for C7 at concrete chunk sequences. -/
theorem c7_duplex_transparency_witness :
    forward_client_to_mcp [[123, 34], [105, 100], [34, 125, 10]] =
      [123, 34, 105, 100, 34, 125, 10] ∧
    forward_mcp_to_client [[123, 125, 10]] = [123, 125, 10] :=
  c7_duplex_transparency [[123, 34], [105, 100], [34, 125, 10]] [[123, 125, 10]]
    (by decide) (by decide)

/-- One `if key not in body: body[key] = dv` statement of the `/mcp/call`
endpoint. A Python dict is its ordered bindings; assigning a missing key
appends it at the end, and a present key leaves the dict untouched. -/
def setDefault (key : String) (dv : Json) (body : List (String × Json)) :
    List (String × Json) :=
  if (body.lookup key).isSome then body else body ++ [(key, dv)]

/-- The body rewriting of the `/mcp/call` endpoint (http_mcp_server.py lines
88-94): `if "jsonrpc" not in body: body["jsonrpc"] = "2.0"` then
`if "id" not in body: body["id"] = 1`, applied in that order. -/
def mcp_call_body (body : List (String × Json)) : List (String × Json) :=
  setDefault "id" (.num 1) (setDefault "jsonrpc" (.str "2.0") body)

/-- Looking up a key bound in the front list ignores the appended tail. -/
theorem lookup_append_of_some {α β : Type} [BEq α] (l1 l2 : List (α × β)) (k : α)
    (v : β) (h : l1.lookup k = some v) : (l1 ++ l2).lookup k = some v := by
  induction l1 with
  | nil => simp [List.lookup] at h
  | cons p rest ih =>
    match p with
    | (k', v') =>
      by_cases hk : k == k' <;> simp [List.lookup, hk] at h ⊢
      · exact h
      · exact ih h

/-- Looking up a key absent from the front list falls through to the tail. -/
theorem lookup_append_of_none {α β : Type} [BEq α] (l1 l2 : List (α × β)) (k : α)
    (h : l1.lookup k = none) : (l1 ++ l2).lookup k = l2.lookup k := by
  induction l1 with
  | nil => simp
  | cons p rest ih =>
    match p with
    | (k', v') =>
      by_cases hk : k == k' <;> simp [List.lookup, hk] at h ⊢
      exact ih h

/-- A supplied binding survives one default-filling statement. -/
theorem setDefault_preserves (key : String) (dv : Json) (body : List (String × Json))
    (k : String) (v : Json) (hv : body.lookup k = some v) :
    (setDefault key dv body).lookup k = some v := by
  unfold setDefault
  by_cases h : (body.lookup key).isSome
  · simpa [h] using hv
  · simpa [h] using lookup_append_of_some body [(key, dv)] k v hv

/-- A default-filling statement on an absent key binds it to the default. -/
theorem setDefault_fills (key : String) (dv : Json) (body : List (String × Json))
    (h : body.lookup key = none) : (setDefault key dv body).lookup key = some dv := by
  unfold setDefault
  rw [if_neg (by simp [h]), lookup_append_of_none body _ _ h]
  simp [List.lookup]

/-- A default-filling statement leaves lookups of other keys unchanged. -/
theorem setDefault_other (key : String) (dv : Json) (body : List (String × Json))
    (k : String) (hk : (k == key) = false) :
    (setDefault key dv body).lookup k = body.lookup k := by
  unfold setDefault
  by_cases h : (body.lookup key).isSome
  · simp [h]
  · rw [if_neg (by simp [h])]
    match hb : body.lookup k with
    | some v => exact lookup_append_of_some body _ k v hb
    | none => rw [lookup_append_of_none body _ _ hb]; simp [List.lookup, hk]

/-- C9: the `/mcp/call` endpoint forwards every key the caller supplied with
its original value, fills in `"jsonrpc" = "2.0"` exactly when the caller
omitted it, and fills in `"id" = 1` exactly when the caller omitted it. -/
theorem c9_mcp_call_defaults (body : List (String × Json)) :
    (∀ k v, body.lookup k = some v → (mcp_call_body body).lookup k = some v) ∧
    (body.lookup "jsonrpc" = none →
      (mcp_call_body body).lookup "jsonrpc" = some (.str "2.0")) ∧
    (body.lookup "id" = none → (mcp_call_body body).lookup "id" = some (.num 1)) := by
  refine ⟨fun k v hv => ?_, fun hj => ?_, fun hi => ?_⟩
  · exact setDefault_preserves _ _ _ _ _ (setDefault_preserves _ _ _ _ _ hv)
  · exact setDefault_preserves _ _ _ _ _ (setDefault_fills _ _ _ hj)
  · refine setDefault_fills _ _ _ ?_
    rw [setDefault_other "jsonrpc" (.str "2.0") body "id" (by decide)]
    exact hi

/-- Witness for C9 at a concrete body supplying only `"method"`. -/
theorem c9_mcp_call_defaults_witness :
    (mcp_call_body [("method", .str "tools/list")]).lookup "method" =
      some (.str "tools/list") ∧
    (mcp_call_body [("method", .str "tools/list")]).lookup "jsonrpc" =
      some (.str "2.0") ∧
    (mcp_call_body [("method", .str "tools/list")]).lookup "id" = some (.num 1) :=
  ⟨(c9_mcp_call_defaults [("method", .str "tools/list")]).1 "method"
      (.str "tools/list") rfl,
   (c9_mcp_call_defaults [("method", .str "tools/list")]).2.1 rfl,
   (c9_mcp_call_defaults [("method", .str "tools/list")]).2.2 rfl⟩

/-! Write interleaving on the shared child's stdin.

Each wrapper call issues `stdin.write(json.dumps(request) + "\n")`: a single
synchronous call with no suspension point inside, so under asyncio's
cooperative scheduling the whole line is placed on the stream in one atomic
step; suspension points (`drain`, `readline`) fall between lines.  A caller
is a queue of lines it will write (each the `json.dumps` output, which
contains no raw newline); a schedule picks which caller performs its next
atomic write at each step. -/

/-- Split a character stream into its newline-terminated lines, as the
line-oriented child reads its stdin. -/
def splitOnNL : List Char → List (List Char)
  | [] => []
  | c :: cs =>
    if c = '\n' then [] :: splitOnNL cs
    else
      match splitOnNL cs with
      | [] => [[c]]
      | l :: ls => (c :: l) :: ls

/-- Run a schedule over the callers' pending write queues: at each step the
scheduled caller, if it still has a line to write, performs its one atomic
`stdin.write`; the result is the sequence of lines written, in order. -/
def runSchedule : List Nat → List (List (List Char)) → List (List Char)
  | [], _ => []
  | i :: sched, queues =>
    match queues.get? i with
    | some (line :: more) => line :: runSchedule sched (queues.set i more)
    | some [] => runSchedule sched queues
    | none => runSchedule sched queues

/-- The character stream the child's stdin receives: each written line
followed by the appended newline. -/
def stdinChars (written : List (List Char)) : List Char :=
  (written.map (fun l => l ++ ['\n'])).flatten

theorem runSchedule_cons_hit (i : Nat) (sched : List Nat)
    (queues : List (List (List Char))) (line : List Char) (more : List (List Char))
    (h : queues.get? i = some (line :: more)) :
    runSchedule (i :: sched) queues = line :: runSchedule sched (queues.set i more) := by
  rw [List.get?_eq_getElem? queues i] at h
  simp [runSchedule, h]

theorem runSchedule_cons_empty (i : Nat) (sched : List Nat)
    (queues : List (List (List Char))) (h : queues.get? i = some []) :
    runSchedule (i :: sched) queues = runSchedule sched queues := by
  rw [List.get?_eq_getElem? queues i] at h
  simp [runSchedule, h]

theorem runSchedule_cons_none (i : Nat) (sched : List Nat)
    (queues : List (List (List Char))) (h : queues.get? i = none) :
    runSchedule (i :: sched) queues = runSchedule sched queues := by
  rw [List.get?_eq_getElem? queues i] at h
  simp [runSchedule, h]

/-- Every line a schedule writes is one of some caller's queued lines. -/
theorem runSchedule_mem (sched : List Nat) (queues : List (List (List Char)))
    (line : List Char) (hl : line ∈ runSchedule sched queues) :
    ∃ q ∈ queues, line ∈ q := by
  induction sched generalizing queues with
  | nil => simp [runSchedule] at hl
  | cons i sched ih =>
    rcases hq : queues.get? i with _ | q
    · rw [runSchedule_cons_none i sched queues hq] at hl
      exact ih queues hl
    · match q, hq with
      | [], hq =>
        rw [runSchedule_cons_empty i sched queues hq] at hl
        exact ih queues hl
      | x :: more, hq =>
        rw [runSchedule_cons_hit i sched queues x more hq] at hl
        rcases List.mem_cons.mp hl with h | h
        · exact ⟨x :: more, List.get?_mem hq, by simp [h]⟩
        · rcases ih (queues.set i more) h with ⟨q', hq', hline⟩
          rcases List.mem_or_eq_of_mem_set hq' with h' | h'
          · exact ⟨q', h', hline⟩
          · exact ⟨x :: more, List.get?_mem hq, by simp [h' ▸ hline]⟩

/-- Splitting recovers a newline-free line written ahead of the stream. -/
theorem splitOnNL_line (l rest : List Char) (h : '\n' ∉ l) :
    splitOnNL (l ++ '\n' :: rest) = l :: splitOnNL rest := by
  induction l with
  | nil => simp [splitOnNL]
  | cons c cs ih =>
    have hc : ¬ c = '\n' := fun e => h (by simp [e])
    have h' : '\n' ∉ cs := fun hm => h (List.mem_cons_of_mem _ hm)
    simp [splitOnNL, hc, ih h']

/-- Splitting the stdin stream recovers exactly the written lines when each
written line is newline-free. -/
theorem splitOnNL_stdinChars (written : List (List Char))
    (h : ∀ l ∈ written, '\n' ∉ l) : splitOnNL (stdinChars written) = written := by
  induction written with
  | nil => rfl
  | cons l rest ih =>
    have hl : '\n' ∉ l := h l (List.mem_cons_self l rest)
    have hrest : ∀ x ∈ rest, '\n' ∉ x := fun x hx => h x (List.mem_cons_of_mem l hx)
    simp only [stdinChars, List.map_cons, List.flatten_cons, List.append_assoc,
      List.singleton_append]
    rw [splitOnNL_line l _ hl]
    simpa [stdinChars] using ih hrest

/-- C3: under every interleaving of concurrent callers sharing the child's
stdin, each scheduled `stdin.write` places one whole request line atomically,
so the lines the child reads back off its stdin are exactly the lines the
callers wrote — every line is one caller's complete request and no line is a
mixture of fragments from different callers. -/
theorem c3_no_interleaved_fragments (sched : List Nat)
    (queues : List (List (List Char)))
    (h : ∀ q ∈ queues, ∀ line ∈ q, '\n' ∉ line) :
    splitOnNL (stdinChars (runSchedule sched queues)) = runSchedule sched queues ∧
    ∀ line ∈ runSchedule sched queues, ∃ q ∈ queues, line ∈ q := by
  have hmem : ∀ line ∈ runSchedule sched queues, ∃ q ∈ queues, line ∈ q :=
    fun line hl => runSchedule_mem sched queues line hl
  refine ⟨splitOnNL_stdinChars _ fun l hl => ?_, hmem⟩
  rcases hmem l hl with ⟨q, hq, hlq⟩
  exact h q hq l hlq

/-- Witness for C3: two callers, the first with two queued request lines, the
second with one, under the schedule first-second-first. -/
theorem c3_no_interleaved_fragments_witness :
    splitOnNL (stdinChars (runSchedule [0, 1, 0]
        [[['i', 'd', '1'], ['i', 'd', '3']], [['i', 'd', '2']]])) =
      runSchedule [0, 1, 0] [[['i', 'd', '1'], ['i', 'd', '3']], [['i', 'd', '2']]] :=
  (c3_no_interleaved_fragments [0, 1, 0]
    [[['i', 'd', '1'], ['i', 'd', '3']], [['i', 'd', '2']]] (by decide)).1

/-! The SSE keep-alive generators.

`sse_transport.py` lines 114-132 and `http_mcp_server.py` lines 102-129 both
expose `/mcp/stream`, whose handler runs an `event_generator` coroutine:
yield a `connected` event once, then loop forever yielding a keep-alive event
with an `asyncio.sleep(30)` per iteration (before the yield in
`http_mcp_server`, after it in `sse_transport`), until the peer disconnects
and the generator is torn down externally. Neither generator body references
`mcp_server` or any child-process stream. -/

/-- An event yielded on the `/mcp/stream` SSE channel: the initial
`connected` event, the `heartbeat` keep-alive of `sse_transport`, or the
`ping` keep-alive of `http_mcp_server`. No constructor carries a call
response: the stream transports no call results. -/
inductive SSEEvent where
  | connected : SSEEvent
  | heartbeat : SSEEvent
  | ping : SSEEvent
deriving Repr, DecidableEq

/-- The event is one of the two keep-alive kinds. -/
def SSEEvent.isKeepAlive : SSEEvent → Bool
  | .heartbeat => true
  | .ping => true
  | .connected => false

/-- Resumption point of `sse_transport`'s event_generator: before the first
yield, about to yield the first heartbeat (no sleep executed yet), or inside
the steady loop. -/
inductive SseGenState where
  | start : SseGenState
  | firstBeat : SseGenState
  | beat : SseGenState
deriving Repr, DecidableEq

/-- One yield of `sse_transport.py`'s event_generator (lines 118-123): the
connected event first; the loop yields a heartbeat and then sleeps 30
seconds, so the first heartbeat follows the connected event immediately and
every later one follows a 30-second sleep. Returns the yielded event, the
seconds slept since the previous yield, and the resumption state. -/
def sseGenStep : SseGenState → SSEEvent × Nat × SseGenState
  | .start => (.connected, 0, .firstBeat)
  | .firstBeat => (.heartbeat, 0, .beat)
  | .beat => (.heartbeat, 30, .beat)

/-- Resumption point of `http_mcp_server.py`'s event_generator. -/
inductive HttpGenState where
  | start : HttpGenState
  | pinging : HttpGenState
deriving Repr, DecidableEq

/-- One yield of `http_mcp_server.py`'s event_generator (lines 105-113): the
connected event first; the loop sleeps 30 seconds and then yields a ping, so
every ping follows a 30-second sleep. -/
def httpGenStep : HttpGenState → SSEEvent × Nat × HttpGenState
  | .start => (.connected, 0, .pinging)
  | .pinging => (.ping, 30, .pinging)

/-- Resumption state of `sse_transport`'s generator before its `n`-th yield. -/
def sseStateAt : Nat → SseGenState
  | 0 => .start
  | n + 1 => (sseGenStep (sseStateAt n)).2.2

/-- The `n`-th event `sse_transport`'s generator yields (0-indexed). -/
def sseEventAt (n : Nat) : SSEEvent := (sseGenStep (sseStateAt n)).1

/-- Seconds slept between the `n`-th yield and the one before it. -/
def sseDelayAt (n : Nat) : Nat := (sseGenStep (sseStateAt n)).2.1

/-- Resumption state of `http_mcp_server`'s generator before its `n`-th yield. -/
def httpStateAt : Nat → HttpGenState
  | 0 => .start
  | n + 1 => (httpGenStep (httpStateAt n)).2.2

/-- The `n`-th event `http_mcp_server`'s generator yields (0-indexed). -/
def httpEventAt (n : Nat) : SSEEvent := (httpGenStep (httpStateAt n)).1

/-- Seconds slept between the `n`-th yield and the one before it. -/
def httpDelayAt (n : Nat) : Nat := (httpGenStep (httpStateAt n)).2.1

/-- Running the stream generator beside the shared wrapped child: the
generator body references no child-process stream, so one yield returns the
event and leaves the `BridgeState` untouched. -/
def sseSystemStep (g : SseGenState) (s : BridgeState) :
    (SSEEvent × Nat) × SseGenState × BridgeState :=
  ((( sseGenStep g).1, (sseGenStep g).2.1), (sseGenStep g).2.2, s)

/-- Generator state and bridge state after `n` yields of the stream running
beside the shared child. -/
def sseSystemState : Nat → BridgeState → SseGenState × BridgeState
  | 0, s => (.start, s)
  | n + 1, s => (sseSystemStep (sseSystemState n s).1 (sseSystemState n s).2).2

theorem sseStateAt_succ_succ (n : Nat) : sseStateAt (n + 2) = .beat := by
  induction n with
  | zero => rfl
  | succ n ih =>
    have h : sseStateAt (n + 1 + 2) = (sseGenStep (sseStateAt (n + 2))).2.2 := rfl
    rw [h, ih]
    rfl

theorem httpStateAt_succ (n : Nat) : httpStateAt (n + 1) = .pinging := by
  induction n with
  | zero => rfl
  | succ n ih =>
    have h : httpStateAt (n + 1 + 1) = (httpGenStep (httpStateAt (n + 1))).2.2 := rfl
    rw [h, ih]
    rfl

/-- C8: on both `/mcp/stream` endpoints the first event emitted is the
connected event, every subsequent event is a keep-alive heartbeat, the sleep
between consecutive steady-state heartbeats is the fixed 30 seconds, no
emitted event is anything but `connected` or a keep-alive (the stream never
carries a call result), and running the stream leaves the wrapped child's
state untouched — the generator neither reads from nor writes to the child
process. -/
theorem c8_stream_connected_then_heartbeats :
    sseEventAt 0 = .connected ∧
    (∀ n, (sseEventAt (n + 1)).isKeepAlive = true) ∧
    (∀ n, sseDelayAt (n + 2) = 30) ∧
    httpEventAt 0 = .connected ∧
    (∀ n, (httpEventAt (n + 1)).isKeepAlive = true) ∧
    (∀ n, httpDelayAt (n + 1) = 30) ∧
    (∀ n, sseEventAt n = .connected ∨ (sseEventAt n).isKeepAlive = true) ∧
    (∀ n, httpEventAt n = .connected ∨ (httpEventAt n).isKeepAlive = true) ∧
    (∀ n s, (sseSystemState n s).2 = s) := by
  have hsse : ∀ n, (sseEventAt (n + 1)).isKeepAlive = true := by
    intro n
    match n with
    | 0 => rfl
    | m + 1 => simp [sseEventAt, sseStateAt_succ_succ m, sseGenStep, SSEEvent.isKeepAlive]
  have hhttp : ∀ n, (httpEventAt (n + 1)).isKeepAlive = true := by
    intro n
    simp [httpEventAt, httpStateAt_succ n, httpGenStep, SSEEvent.isKeepAlive]
  refine ⟨rfl, hsse, ?_, rfl, hhttp, ?_, ?_, ?_, ?_⟩
  · intro n
    simp [sseDelayAt, sseStateAt_succ_succ n, sseGenStep]
  · intro n
    simp [httpDelayAt, httpStateAt_succ n, httpGenStep]
  · intro n
    match n with
    | 0 => exact Or.inl rfl
    | m + 1 => exact Or.inr (hsse m)
  · intro n
    match n with
    | 0 => exact Or.inl rfl
    | m + 1 => exact Or.inr (hhttp m)
  · intro n s
    induction n with
    | zero => rfl
    | succ n ih => simp [sseSystemState, sseSystemStep, ih]

end FplMcp
